import Mathlib

/-!
Shallow embedding of the `cldr` changelog manager (Python) in Lean 4.

Text is modelled as `List Char` (Python `str`).  Each definition mirrors a
function of the source repository (`src/cldr/_bullet.py`, `_tags.py`,
`_helpers.py`, `_runners.py`, `_constants.py`); doc comments name the Python
symbol a definition embeds.  The regular expressions of the source are
translated into explicit prefix-match-length enumerations that follow
Python `re`'s backtracking order (ordered alternation, greedy quantifiers):
for every character-class subexpression the candidate match lengths are
produced longest first, and alternatives are tried in their written order.
External effects (git subprocesses used by the RelativeCommit tag) are
modelled by an explicit oracle structure `GitWorld` threaded through
rendering.
-/

namespace Cldr

/-- `Str` abbreviates the model of Python `str`: a list of characters. -/
abbrev Str := List Char

/-- Character class `[a-z]` (ASCII lower-case letters). -/
def isLowerAZ (c : Char) : Bool := 'a' ≤ c && c ≤ 'z'

/-- Character class `[A-Z]` (ASCII upper-case letters). -/
def isUpperAZ (c : Char) : Bool := 'A' ≤ c && c ≤ 'Z'

/-- Character class `[A-Za-z]`. -/
def isAsciiLetter (c : Char) : Bool := isLowerAZ c || isUpperAZ c

/-- Character class `[1-9]`. -/
def isDigit19 (c : Char) : Bool := '1' ≤ c && c ≤ '9'

/-- Character class `[0-9]`. -/
def isDigit09 (c : Char) : Bool := '0' ≤ c && c ≤ '9'

/-- The whitespace characters removed by Python `str.strip()` (ASCII part). -/
def isPyWs (c : Char) : Bool :=
  c = ' ' || c = '\t' || c = '\n' || c = '\r' || c = '\x0b' || c = '\x0c'

/-- Python `str.strip()`. -/
def pyStrip (cs : Str) : Str :=
  ((cs.dropWhile isPyWs).reverse.dropWhile isPyWs).reverse

/-- The regex fragment `[ ]*` (greedy run of spaces): drop leading spaces. -/
def dropSpaces (cs : Str) : Str := cs.dropWhile (· = ' ')

/-- Python `str.split(sep)` for a one-character separator. -/
def pySplitChar (sep : Char) : Str → List Str
  | [] => [[]]
  | c :: rest =>
    if c = sep then [] :: pySplitChar sep rest
    else
      match pySplitChar sep rest with
      | t :: ts => (c :: t) :: ts
      | [] => [[c]]

/-- Python `sep.join(parts)` for a one-character separator. -/
def pyJoinChar (sep : Char) : List Str → Str
  | [] => []
  | [p] => p
  | p :: rest => p ++ sep :: pyJoinChar sep rest

/-- Split a string at the LAST occurrence of `ch`, returning the parts
before and after it; `none` when `ch` does not occur.  This is how a
greedy `.*` positions itself before a literal `ch` in a Python regex. -/
def lastSplitAt (ch : Char) : Str → Option (Str × Str)
  | [] => none
  | c :: rest =>
    match lastSplitAt ch rest with
    | some (a, t) => some (c :: a, t)
    | none => if c = ch then some ([], rest) else none

/-- Worker for `replaceAll`, structurally recursive on a fuel that bounds
the number of scan steps (each step consumes at least one character, so
`s.length` fuel is always enough). -/
def replaceAllAux (pat repl : Str) : Nat → Str → Str
  | _, [] => []
  | 0, s => s
  | fuel + 1, c :: rest =>
    if !pat.isEmpty && pat.isPrefixOf (c :: rest) then
      repl ++ replaceAllAux pat repl fuel ((c :: rest).drop pat.length)
    else
      c :: replaceAllAux pat repl fuel rest

/-- Python `str.replace(old, new)`: replace every non-overlapping occurrence,
scanning left to right.  (All call sites in the source pass a non-empty
`pat`; for `pat = []` the model returns `s` unchanged.) -/
def replaceAll (s pat repl : Str) : Str := replaceAllAux pat repl s.length s

/-- Worker for `countOcc` (same fuel discipline as `replaceAllAux`). -/
def countOccAux (pat : Str) : Nat → Str → Nat
  | _, [] => 0
  | 0, _ => 0
  | fuel + 1, c :: rest =>
    if !pat.isEmpty && pat.isPrefixOf (c :: rest) then
      1 + countOccAux pat fuel ((c :: rest).drop pat.length)
    else
      countOccAux pat fuel rest

/-- Number of non-overlapping occurrences of `pat` counted by the same
left-to-right scan as `replaceAll`. -/
def countOcc (pat : Str) (s : Str) : Nat := countOccAux pat s.length s

/-- The bullet kinds (`Kind` literal of `_constants.py`). -/
inductive Kind
  | add | chg | dep | fix | misc | rm | sec
deriving DecidableEq, Repr

/-- `KIND_TO_SECTION_MAP` of `_constants.py`. -/
def KIND_TO_SECTION_MAP : Kind → Str
  | .add => "Added".data
  | .chg => "Changed".data
  | .dep => "Deprecated".data
  | .fix => "Fixed".data
  | .misc => "Miscellaneous".data
  | .rm => "Removed".data
  | .sec => "Security".data

/-- Recognize the lower-cased kind string against the kind enumeration
(the `kind not in KIND_TO_SECTION_MAP` test of `Bullet.from_string`). -/
def kindOfStr (cs : Str) : Option Kind :=
  if cs = "add".data then some .add
  else if cs = "chg".data then some .chg
  else if cs = "dep".data then some .dep
  else if cs = "fix".data then some .fix
  else if cs = "misc".data then some .misc
  else if cs = "rm".data then some .rm
  else if cs = "sec".data then some .sec
  else none

/-- Configuration values consumed by the core (supplied by clack config
loading, which is outside the specified core): `github_repo`,
`jira_base_url`, `jira_org`. -/
structure Config where
  github_repo : Str
  jira_base_url : Option Str
  jira_org : Option Str
deriving DecidableEq, Repr

/-- The five registered tag types of `_tags.py`, each carrying its captured
raw tag string, in registration order: BreakingChangeTag, GithubIssue,
GithubPullRequest, JiraIssue, RelativeCommitTag. -/
inductive Tag
  | breakingChange (tag : Str)
  | githubIssue (tag : Str)
  | githubPullRequest (tag : Str)
  | jiraIssue (tag : Str)
  | relativeCommit (tag : Str)
deriving DecidableEq, Repr

/-- The error taxonomy of the modelled failure paths (the source uses
`eris` string-message errors; each constructor records the data the
corresponding message interpolates). -/
inductive CldrError
  /-- `Bullet.from_string`: the line does not match `BULLET_PATTERN`. -/
  | malformedLine (line : Str)
  /-- `Bullet.from_string`: kind not in `KIND_TO_SECTION_MAP`. -/
  | invalidKind (kind : Str) (line : Str)
  /-- `Bullet.from_string`: a comma-separated token matches no tag type. -/
  | unknownTag (tag : Str)
  /-- `read_bullets_from_changelog_dir`: wrapper naming the offending line. -/
  | bulletParse (line : Str) (inner : CldrError)
  /-- `read_bullets_from_changelog_dir`: changelog directory missing. -/
  | changelogDirMissing
  /-- `read_bullets_from_changelog_dir`: no eligible markdown files. -/
  | noBulletFiles
  /-- `JiraIssue.transform_bullet`: the message naming the
  `jira_base_url` configuration option that must be set. -/
  | jiraBaseUrlUnset
  /-- `JiraIssue.transform_bullet`: bare-numeric tag with `jira_org`
  unset (the message names the option and the tag). -/
  | jiraOrgUnset (tag : Str)
  /-- `BreakingChangeTag.transform_bullet`: kind not in `{chg, rm}`
  (a `RuntimeError` in the source, i.e. a fatal usage error). -/
  | bcDisallowedKind (kind : Kind) (line : Str)
  /-- `run_build`: no unreleased section header; carries the expected
  header form reported as guidance. -/
  | noUnreleasedSection (expectedForm : Str)
  /-- `get_version`: the version-header regex does not match the line. -/
  | versionHeaderNoMatch (line : Str)
deriving DecidableEq, Repr

/-! ### Tag grammars

Each `...Lens` function enumerates, in Python-`re` backtracking order
(ordered alternatives, greedy quantifiers trying longest first), the
lengths of the prefixes of the input that the tag type's `regexp` can
match.  `re.match(regexp, s)` succeeds exactly when the list is nonempty. -/

/-- `[hi, hi-1, ..., lo]` (empty when `hi < lo`): the order in which a
greedy quantifier offers match lengths. -/
def descend (hi lo : Nat) : List Nat := (List.range' lo (hi + 1 - lo)).reverse

/-- Length of the maximal run of characters satisfying `p`. -/
def runLen (p : Char → Bool) (cs : Str) : Nat := (cs.takeWhile p).length

/-- Prefix-match lengths of `[1-9][0-9]*`, longest first. -/
def numLens : Str → List Nat
  | [] => []
  | c :: rest => if isDigit19 c then descend (1 + runLen isDigit09 rest) 1 else []

/-- `BreakingChangeTag.regexp`: the literal `bc`. -/
def bcLens (cs : Str) : List Nat :=
  if ("bc".data).isPrefixOf cs then [2] else []

/-- Character class `[^/CH]` used by `_github_tag_regexp`. -/
def ghSeg (ch : Char) (c : Char) : Bool := !(c = '/' || c = ch)

/-- First alternative `CH[1-9][0-9]*` of `_github_tag_regexp(CH)`. -/
def ghAlt1Lens (ch : Char) : Str → List Nat
  | [] => []
  | c :: rest => if c = ch then (numLens rest).map (· + 1) else []

/-- Second alternative `[^/CH]+CH[1-9][0-9]*` of `_github_tag_regexp(CH)`. -/
def ghAlt2Lens (ch : Char) (cs : Str) : List Nat :=
  (descend (runLen (ghSeg ch) cs) 1).flatMap fun a =>
    match cs.drop a with
    | c :: rest => if c = ch then (numLens rest).map (· + (a + 1)) else []
    | [] => []

/-- Third alternative `[^/CH]+/[^/CH]+CH[1-9][0-9]*` of
`_github_tag_regexp(CH)`. -/
def ghAlt3Lens (ch : Char) (cs : Str) : List Nat :=
  (descend (runLen (ghSeg ch) cs) 1).flatMap fun a =>
    match cs.drop a with
    | c1 :: rest2 =>
      if c1 = '/' then
        (descend (runLen (ghSeg ch) rest2) 1).flatMap fun b =>
          (match rest2.drop b with
           | c :: rest3 =>
             if c = ch then (numLens rest3).map (· + (a + 1 + b + 1)) else []
           | [] => [])
      else []
    | [] => []

/-- `_github_tag_regexp(CH)`: the three alternatives in written order. -/
def ghLens (ch : Char) (cs : Str) : List Nat :=
  ghAlt1Lens ch cs ++ ghAlt2Lens ch cs ++ ghAlt3Lens ch cs

/-- `JiraIssue.regexp`: `(?:[A-Za-z]+-)?[1-9][0-9]*` (greedy optional
prefix tried first). -/
def jiraLens (cs : Str) : List Nat :=
  ((descend (runLen isAsciiLetter cs) 1).flatMap fun a =>
    match cs.drop a with
    | c :: rest => if c = '-' then (numLens rest).map (· + (a + 1)) else []
    | [] => [])
  ++ numLens cs

/-- `RelativeCommitTag.regexp`: `c(?:0|[1-9][0-9]*)`. -/
def relLens : Str → List Nat
  | [] => []
  | c :: rest =>
    if c = 'c' then
      (match rest with
       | c2 :: _ => if c2 = '0' then [2] else []
       | [] => []) ++ (numLens rest).map (· + 1)
    else []

/-- The tag-classification loop of `Bullet.from_string`: try each
registered tag type's `regexp` with `re.match` (an UNANCHORED prefix
match) in registration order; the first type that matches wins and is
instantiated with the raw token. -/
def classifyTag (raw : Str) : Option Tag :=
  if bcLens raw ≠ [] then some (.breakingChange raw)
  else if ghLens '#' raw ≠ [] then some (.githubIssue raw)
  else if ghLens '!' raw ≠ [] then some (.githubPullRequest raw)
  else if jiraLens raw ≠ [] then some (.jiraIssue raw)
  else if relLens raw ≠ [] then some (.relativeCommit raw)
  else none

/-- Classify every comma-separated token, stopping at the first token that
matches no registered tag type (the `for ... else: return Err` of
`Bullet.from_string`). -/
def classifyTags : List Str → Except CldrError (List Tag)
  | [] => .ok []
  | raw :: rest =>
    match classifyTag raw with
    | none => .error (.unknownTag raw)
    | some t =>
      match classifyTags rest with
      | .error e => .error e
      | .ok ts => .ok (t :: ts)

/-! ### The bullet-line grammar `BULLET_PATTERN`

`^[*-][ ]*(?P<kind>[a-z]+)[ ]*(?:\((?P<tags>TAG(?:,TAG)*)\))?[ ]*:`
`[ ]*(?P<body>.*)$` where `TAG` is the ordered union of the registered
tag regexps.  The fixed front part (`[*-]`, spaces, `[a-z]+`, spaces) is
deterministic because the classes involved are disjoint from what may
follow; the tags group genuinely backtracks, which `tryTagList` /
`tagListStep` implement, checking the continuation `\)[ ]*:[ ]*(.*)$`
before accepting a decomposition.  (`.` does not match a newline, and `$`
matches at the end or before a final newline, as in Python.) -/

/-- Match the continuation `[ ]*:[ ]*(?P<body>.*)$`, returning the
captured body. -/
def contExtract (cs : Str) : Option Str :=
  let s := dropSpaces cs
  if s.head? = some ':' then
    let afterSp := dropSpaces s.tail
    let b := afterSp.takeWhile (· ≠ '\n')
    match afterSp.dropWhile (· ≠ '\n') with
    | [] => some b
    | ['\n'] => some b
    | _ => none
  else none

/-- Prefix-match lengths of a single `TAG` (union of the five registered
regexps, in registration order). -/
def tagLens (cs : Str) : List Nat :=
  bcLens cs ++ ghLens '#' cs ++ ghLens '!' cs ++ jiraLens cs ++ relLens cs

mutual
/-- Try each candidate length for one `TAG`, then continue with the
greedy `(?:,TAG)*` repetition.  `consumed` is the length of tags-group
content accepted so far; the result is the total content length of a
decomposition whose continuation also matches. -/
def tryTagList : Nat → Str → Nat → Option Nat
  | 0, _, _ => none
  | fuel + 1, cs, consumed =>
    (tagLens cs).findSome? fun l =>
      if l = 0 then none else tagListStep fuel (cs.drop l) (consumed + l)

/-- After a `TAG`: greedily try another `,TAG` iteration first, then try
to close the group with `)` and check the continuation
`[ ]*:[ ]*(.*)$`. -/
def tagListStep : Nat → Str → Nat → Option Nat
  | 0, _, _ => none
  | fuel + 1, cs, consumed =>
    (match cs with
     | ',' :: rest => tryTagList fuel rest (consumed + 1)
     | _ => none).orElse fun _ =>
      match cs with
      | ')' :: rest => if (contExtract rest).isSome then some consumed else none
      | _ => none
end

/-- Match `BULLET_PATTERN` against a line, returning the `kind`, optional
`tags` and `body` captured groups. -/
def bulletMatch (line : Str) : Option (Str × Option Str × Str) :=
  match line with
  | [] => none
  | m :: rest =>
    if m = '*' || m = '-' then
      let afterSp := dropSpaces rest
      let kind := afterSp.takeWhile isLowerAZ
      if kind.isEmpty then none
      else
        let afterKind := dropSpaces (afterSp.drop kind.length)
        if afterKind.head? = some '(' then
          let afterParen := afterKind.tail
          match tryTagList (afterParen.length + 2) afterParen 0 with
          | some n =>
            match contExtract (afterParen.drop (n + 1)) with
            | some body => some (kind, some (afterParen.take n), body)
            | none => none
          | none => none
        else
          match contExtract afterKind with
          | some body => some (kind, none, body)
          | none => none
    else none

/-- The `Bullet` value object of `_bullet.py`. -/
structure Bullet where
  cfg : Config
  line : Str
  changelog_dir : Str
  kind : Kind
  tags : List Tag
  body : Str
deriving DecidableEq, Repr

/-- `Bullet.from_string` of `_bullet.py`: match `BULLET_PATTERN`,
lower-case and validate the kind, split the tags group on commas and
classify each token, and build the `Bullet`. -/
def from_string (cfg : Config) (line : Str) (changelog_dir : Str) :
    Except CldrError Bullet :=
  match bulletMatch line with
  | none => .error (.malformedLine line)
  | some (kindStr, tagsGroup, body) =>
    let kind := kindStr.map Char.toLower
    match kindOfStr kind with
    | none => .error (.invalidKind kind line)
    | some k =>
      let rawTags := match tagsGroup with
                     | none => []
                     | some g => pySplitChar ',' g
      match classifyTags rawTags with
      | .error e => .error e
      | .ok tags => .ok ⟨cfg, line, changelog_dir, k, tags, body⟩

/-! ### Tag rendering (`_tags.py`) -/

/-- The regex `^.*\((?P<tags>.*)\)$` of `_add_tag_to_paren_group`: when it
matches, return the `tags` capture — the text between the LAST `(` (greedy
`.*`) and a final `)`.  `.` does not match a newline and `$` also matches
just before a single trailing newline, so after stripping one trailing
newline the remainder must be newline-free, end in `)` and contain an
earlier `(`. -/
def parenGroupCapture (cs : Str) : Option Str :=
  let core := if cs.getLast? = some '\n' then cs.dropLast else cs
  if core.contains '\n' then none
  else if core.getLast? = some ')' then (lastSplitAt '(' core.dropLast).map Prod.snd
  else none

/-- `_add_tag_to_paren_group` of `_tags.py`: if the line ends in a
parenthesized group, `str.replace` the group `"(TAGS)"` with
`"(TAGS, TAG)"` (note: Python `replace` rewrites EVERY occurrence);
otherwise append `" (TAG)"`. -/
def add_tag_to_paren_group (bullet_line tag : Str) : Str :=
  match parenGroupCapture bullet_line with
  | some tags =>
    replaceAll bullet_line ('(' :: tags ++ [')'])
      ('(' :: (tags ++ ", ".data ++ tag) ++ [')'])
  | none => bullet_line ++ " (".data ++ tag ++ [')']

/-- Python `list[:-n]`. -/
def dropLastN (n : Nat) (l : List Str) : List Str := l.take (l.length - n)

/-- `_github_tag_transform_bullet` of `_tags.py`.  (`pfx` is the source's
keyword argument `prefix`, renamed because `prefix` is a Lean keyword.
The source unpacks `tag.split(char)` into exactly two names; the model
reads the first two elements of the split.) -/
def github_tag_transform_bullet (github_repo : Str) (ch : Char)
    (url_node : Str) (tag : Str) (bullet_line : Str) (pfx : Str) : Str :=
  let url :=
    if tag.head? = some ch then
      github_repo ++ '/' :: url_node ++ '/' :: tag.filter (· ≠ ch)
    else if tag.contains '/' then
      let github_url := pyJoinChar '/' (dropLastN 2 (pySplitChar '/' github_repo))
      let parts := pySplitChar ch tag
      github_url ++ '/' :: parts.headD [] ++ '/' :: url_node ++ '/' :: parts.getD 1 []
    else
      let github_org_url := pyJoinChar '/' (dropLastN 1 (pySplitChar '/' github_repo))
      let parts := pySplitChar ch tag
      github_org_url ++ '/' :: parts.headD [] ++ '/' :: url_node ++ '/' :: parts.getD 1 []
  let issue_link :=
    '[' :: (pfx ++ tag.map (fun c => if c = ch then '#' else c)) ++ ']' ::
      '(' :: url ++ [')']
  add_tag_to_paren_group bullet_line issue_link

/-- `BreakingChangeTag.transform_bullet` of `_tags.py`: only legal for
kinds `chg` and `rm` (otherwise a fatal `RuntimeError`); on success
replaces the leading `"* "` with `"* *BREAKING CHANGE*: "` (the source
prepends that prefix to `bullet_line[2:]`). -/
def breakingChangeTransform (b : Bullet) (bullet_line : Str) :
    Except CldrError Str :=
  if b.kind = .chg || b.kind = .rm then
    .ok ("* *BREAKING CHANGE*: ".data ++ bullet_line.drop 2)
  else
    .error (.bcDisallowedKind b.kind b.line)

/-- `JiraIssue.transform_bullet` of `_tags.py`: requires `jira_base_url`;
a bare-numeric tag additionally requires `jira_org` and is prefixed with
`ORG-`; the tag is upper-cased and appended as a markdown browse link. -/
def jiraTransform (cfg : Config) (tag0 : Str) (bullet_line : Str) :
    Except CldrError Str :=
  match cfg.jira_base_url with
  | none => .error .jiraBaseUrlUnset
  | some base =>
    match
      (if isDigit09 (tag0.headD ' ') then
        match cfg.jira_org with
        | none => .error (.jiraOrgUnset tag0)
        | some org => .ok (org ++ '-' :: tag0)
      else .ok tag0 : Except CldrError Str)
    with
    | .error e => .error e
    | .ok tag1 =>
      let tag := tag1.map Char.toUpper
      let jira_link := '[' :: tag ++ ']' :: '(' :: (base ++ "/browse/".data ++ tag) ++ [')']
      .ok (add_tag_to_paren_group bullet_line jira_link)

/-- Oracle for the external git history consulted by
`RelativeCommitTag.transform_bullet` (the `git blame` / `git log`
subprocess pipeline): given the changelog directory, the bullet's raw
line and the parsed offset `N`, it returns the target commit's short
hash, long hash and subject words. -/
structure GitWorld where
  commitFor : Str → Str → Nat → (Str × Str × List Str)

/-- Parse the decimal digits of `cN` (Python `int(self.tag[1:])`). -/
def parseNatDigits (cs : Str) : Nat :=
  cs.foldl (fun acc c => acc * 10 + (c.toNat - '0'.toNat)) 0

/-- `RelativeCommitTag.transform_bullet` of `_tags.py`, with the
git-subprocess pipeline abstracted into the `GitWorld` oracle: look up
the commit `N` steps before the commit that introduced the bullet line;
when the bullet body is the placeholder `"..."`, substitute the commit
subject (with a terminal period added when missing); then append a
markdown commit link. -/
def relativeCommitTransform (w : GitWorld) (b : Bullet) (tagStr : Str)
    (bullet_line : Str) : Str :=
  let offset := parseNatDigits (tagStr.drop 1)
  let (short_hash, long_hash, subject_list) :=
    w.commitFor b.changelog_dir b.line offset
  let line1 :=
    if b.body = "...".data then
      let subject0 := (pyJoinChar ' ' subject_list).reverse.dropWhile isPyWs |>.reverse
      let subject :=
        match subject0.getLast? with
        | some c => if c = '.' || c = '!' || c = '?' then subject0 else subject0 ++ ['.']
        | none => subject0 ++ ['.']
      replaceAll bullet_line ("...".data) subject
    else bullet_line
  let commit_link :=
    '[' :: short_hash ++ ']' :: '(' :: (b.cfg.github_repo ++ "/commit/".data ++ long_hash) ++ [')']
  add_tag_to_paren_group line1 commit_link

/-- Dispatch a tag's `transform_bullet` (the duck-typed call in
`Bullet.to_string`).  A `RuntimeError` / `unwrap()`-raised failure is an
`Except.error`. -/
def transform_bullet (w : GitWorld) (b : Bullet) (t : Tag) (bullet_line : Str) :
    Except CldrError Str :=
  match t with
  | .breakingChange _ => breakingChangeTransform b bullet_line
  | .githubIssue tag =>
    .ok (github_tag_transform_bullet b.cfg.github_repo '#' ("issues".data) tag bullet_line [])
  | .githubPullRequest tag =>
    .ok (github_tag_transform_bullet b.cfg.github_repo '!' ("pull".data) tag bullet_line ("PR:".data))
  | .jiraIssue tag => jiraTransform b.cfg tag bullet_line
  | .relativeCommit tag => .ok (relativeCommitTransform w b tag bullet_line)

/-- The tag fold of `Bullet.to_string`: apply each tag's transform in
order, aborting at the first failure. -/
def foldTransforms (w : GitWorld) (b : Bullet) :
    List Tag → Str → Except CldrError Str
  | [], acc => .ok acc
  | t :: ts, acc =>
    match transform_bullet w b t acc with
    | .error e => .error e
    | .ok acc2 => foldTransforms w b ts acc2

/-- `Bullet.to_string` of `_bullet.py`: start from `"* " + body`, fold the
tag transforms, and append a trailing newline. -/
def to_string (w : GitWorld) (b : Bullet) : Except CldrError Str :=
  match foldTransforms w b b.tags ("* ".data ++ b.body) with
  | .error e => .error e
  | .ok r => .ok (r ++ ['\n'])

/-! ### Changelog directory reading (`_helpers.py`) and the release
build (`_runners.py`) -/

/-- `get_version` of `_helpers.py`: `re.search(r"^##[ ]*\[(?P<version>.*)\]", line)`,
capturing (greedily) up to the LAST `]` of the newline-free prefix. -/
def get_version (line : Str) : Except CldrError Str :=
  match line with
  | '#' :: '#' :: rest =>
    (match dropSpaces rest with
     | '[' :: r3 =>
       match lastSplitAt ']' (r3.takeWhile (· ≠ '\n')) with
       | some (v, _) => .ok v
       | none => .error (.versionHeaderNoMatch line)
     | _ => .error (.versionHeaderNoMatch line))
  | _ => .error (.versionHeaderNoMatch line)

/-- The kind-to-bullets grouping (Python `defaultdict(list)`): a kind is
"in" the map exactly when its list is nonempty, which matches the source
because lists only ever gain elements. -/
def KindMap := Kind → List Bullet

/-- Append a bullet under its kind (`kind_to_bullets_map[kind].append`). -/
def KindMap.append (m : KindMap) (k : Kind) (b : Bullet) : KindMap :=
  fun k' => if k' = k then m k ++ [b] else m k'

/-- The empty grouping. -/
def KindMap.empty : KindMap := fun _ => []

/-- The per-line loop of `read_bullets_from_changelog_dir`: strip each
line, skip blanks, parse, and group by kind; the first parse failure
aborts with a wrapping error that names the offending (stripped) line. -/
def groupBullets (cfg : Config) (changelog_dir : Str) :
    List Str → KindMap → Except CldrError KindMap
  | [], acc => .ok acc
  | l :: rest, acc =>
    let line := pyStrip l
    if line.isEmpty then groupBullets cfg changelog_dir rest acc
    else
      match from_string cfg line changelog_dir with
      | .error e => .error (.bulletParse line e)
      | .ok b => groupBullets cfg changelog_dir rest (acc.append b.kind b)

/-- `read_bullets_from_changelog_dir` of `_helpers.py`.  `dirExists`
models `cfg.changelog_dir.exists()`; `files` holds the contents of each
eligible markdown file (every `*.md` except `README.md`, in iteration
order).  NOTE the source's emptiness test `if not bullet_lines:` sees a
truthy `itertools.chain` object whenever at least one file was iterated,
so the `NoBulletsFound` failure fires exactly when there are no eligible
FILES, regardless of their contents. -/
def read_bullets_from_changelog_dir (cfg : Config) (changelog_dir : Str)
    (dirExists : Bool) (files : List Str) : Except CldrError KindMap :=
  if !dirExists then .error .changelogDirMissing
  else if files.isEmpty then .error .noBulletFiles
  else groupBullets cfg changelog_dir ((files.map (pySplitChar '\n')).flatten) KindMap.empty

/-- The constant `_CLDR_URL` of `_constants.py`. -/
def CLDR_URL : Str :=
  "https://bbgithub.dev.bloomberg.com/ComplianceSRE/tools/blob/master/src/bloomberg/compliance/sre/tools/cldr.py".data

/-- `UNRELEASED_BEGIN` of `_constants.py`, already formatted with the
changelog directory name and the repository URL. -/
def UNRELEASED_BEGIN (dirname repo : Str) : Str :=
  "The unreleased section is unique in that we do not add content to it directly.\nInstead, developers of this project add specially formatted bullets to files of\nthe form `".data
    ++ dirname
    ++ "/USER@BRANCH.md`. Refer to the [".data
    ++ dirname
    ++ "/README.md] file or the\n[cldr] script (which consumes these bullets when a new version of this project\nis released) for more information.\n\n[".data
    ++ dirname
    ++ "/README.md]: ".data
    ++ repo
    ++ "/tree/master/".data
    ++ dirname
    ++ "\n[cldr]: ".data
    ++ CLDR_URL
    ++ "\n".data

/-- Does a (stripped) line start the unreleased section?  The source
tests `line.strip().startswith(("## [Unreleased]", "## Unreleased"))`
(the second form is the title with brackets removed). -/
def unreleasedHeaderMatch (l : Str) : Bool :=
  let s := pyStrip l
  ("## [Unreleased]".data).isPrefixOf s || ("## Unreleased".data).isPrefixOf s

/-- The header-location loop of `run_build`: on an unreleased-header line
record its index and `continue`; afterwards the first line whose stripped
form starts with `#` is the section end, stopping the scan. -/
def scanUnreleased : List Str → Nat → Option Nat → Option Nat × Option Nat
  | [], _, st => (st, none)
  | l :: rest, i, st =>
    if unreleasedHeaderMatch l then scanUnreleased rest (i + 1) (some i)
    else
      match st with
      | none => scanUnreleased rest (i + 1) none
      | some s0 =>
        if (pyStrip l).head? = some '#' then (some s0, some i)
        else scanUnreleased rest (i + 1) (some s0)

/-- The kinds in the order `run_build` emits their sections:
`sorted(KIND_TO_SECTION_MAP, key=lambda x: KIND_TO_SECTION_MAP[x])`,
i.e. sorted by section title (which for these titles coincides with the
enumeration order: Added, Changed, Deprecated, Fixed, Miscellaneous,
Removed, Security). -/
def kindsBySectionTitle : List Kind :=
  [.add, .chg, .dep, .fix, .misc, .rm, .sec]

/-- Render the bullets of one kind (`for bullet in map[kind]: new_contents
+= bullet.to_string()`). -/
def renderKindBullets (w : GitWorld) : List Bullet → Except CldrError Str
  | [] => .ok []
  | b :: bs =>
    match to_string w b with
    | .error e => .error e
    | .ok s =>
      match renderKindBullets w bs with
      | .error e => .error e
      | .ok r => .ok (s ++ r)

/-- The subsection loop of `run_build`: for each kind present (in
section-title order) emit a blank-line separator (except before the
first), a `### TITLE` header and the rendered bullets. -/
def renderSections (w : GitWorld) (m : KindMap) :
    List Kind → Bool → Str → Except CldrError Str
  | [], _, acc => .ok acc
  | k :: rest, first, acc =>
    if m k ≠ [] then
      match renderKindBullets w (m k) with
      | .error e => .error e
      | .ok btext =>
        renderSections w m rest false
          (acc ++ (if first then [] else ['\n'])
             ++ "### ".data ++ KIND_TO_SECTION_MAP k ++ "\n\n".data ++ btext)
    else renderSections w m rest first acc

/-- The `BuildConfig` of `_config.py` (fields the core consumes). -/
structure BuildConfig where
  github_repo : Str
  jira_base_url : Option Str
  jira_org : Option Str
  changelog_dir : Str
  new_version : Str
  in_place : Bool

/-- The tag-relevant part of a `BuildConfig`. -/
def BuildConfig.toConfig (bc : BuildConfig) : Config :=
  ⟨bc.github_repo, bc.jira_base_url, bc.jira_org⟩

/-- Python `Path.name`: the last `/`-separated component. -/
def pathName (p : Str) : Str := (pySplitChar '/' p).getLastD []

/-- The external state `run_build` reads: the changelog file's contents,
whether the changelog directory exists, the eligible bullet files'
contents, today's date string, and the git oracle. -/
structure BuildEnv where
  changelogContents : Str
  changelogDirExists : Bool
  bulletFiles : List Str
  today : Str
  git : GitWorld

/-- What one `run_build` invocation did: its exit code, the new changelog
text it produced (printed or written; `none` on the failure paths),
whether the changelog file was rewritten in place, whether the bullet
files were deleted, and the error reported on a handled failure. -/
structure BuildOutcome where
  exitCode : Nat
  newContents : Option Str
  changelogWritten : Bool
  bulletFilesDeleted : Bool
  failure : Option CldrError
deriving DecidableEq, Repr

/-- A handled `run_build` failure: exit code 1, nothing written, nothing
deleted. -/
def failOutcome (e : CldrError) : BuildOutcome := ⟨1, none, false, false, some e⟩

/-- The guidance `run_build` logs when the unreleased header is missing:
the expected header form `'## [Unreleased](REPO/compare/X.Y.Z...HEAD)'`. -/
def expectedUnreleasedForm (repo : Str) : Str :=
  "## [Unreleased](".data ++ repo ++ "/compare/X.Y.Z...HEAD)".data

/-- `run_build` of `_runners.py`.  `Except.error` models an uncaught
exception escaping the runner (e.g. a failing `unwrap()` inside
`Bullet.to_string`); `Except.ok` carries the outcome of a run that
returned.  The scan loop iterates the file's lines; the model scans
`contents.split("\n")`, which matches because a possible final empty
element matches neither header predicate. -/
def run_build (bc : BuildConfig) (env : BuildEnv) : Except CldrError BuildOutcome :=
  match read_bullets_from_changelog_dir bc.toConfig bc.changelog_dir
      env.changelogDirExists env.bulletFiles with
  | .error e => .ok (failOutcome e)
  | .ok m =>
    let old_lines := pySplitChar '\n' env.changelogContents
    match scanUnreleased old_lines 0 none with
    | (none, _) => .ok (failOutcome (.noUnreleasedSection (expectedUnreleasedForm bc.github_repo)))
    | (some s, endOpt) =>
      match
        (match endOpt with
         | none => .ok (bc.github_repo ++ "/releases/tag/".data ++ bc.new_version)
         | some e =>
           match get_version (old_lines.getD e []) with
           | .error err => .error err
           | .ok old_version =>
             .ok (bc.github_repo ++ "/compare/".data ++ old_version ++ "...".data ++ bc.new_version)
         : Except CldrError Str)
      with
      | .error err => .ok (failOutcome err)
      | .ok new_version_url =>
        match renderSections env.git m kindsBySectionTitle true [] with
        | .error e => .error e
        | .ok sections =>
          let new_contents :=
            pyJoinChar '\n' (old_lines.take s) ++ '\n' ::
              ("## [Unreleased](".data ++ bc.github_repo ++ "/compare/".data
                ++ bc.new_version ++ "...HEAD)\n".data)
              ++ '\n' :: UNRELEASED_BEGIN (pathName bc.changelog_dir) bc.github_repo ++ "\n\n".data
              ++ "## [".data ++ bc.new_version ++ "](".data ++ new_version_url
              ++ ") - ".data ++ env.today ++ "\n\n".data
              ++ sections
              ++ (match endOpt with
                  | some e => "\n\n".data ++ pyJoinChar '\n' (old_lines.drop e)
                  | none => [])
          .ok ⟨0, some new_contents, bc.in_place, bc.in_place, none⟩

/-- The text a successful `run_build` outputs (to stdout or the changelog
file); `none` when the run failed or crashed. -/
def buildOutput (bc : BuildConfig) (env : BuildEnv) : Option Str :=
  match run_build bc env with
  | .ok o => o.newContents
  | .error _ => none

/-! ### Shared concrete sample data for witnesses -/

/-- A configuration with `github_repo` and `jira_base_url` set (the values
used by the repository's test suite). -/
def sampleConfig : Config :=
  ⟨"https://github.com/bbugyi200/cldr".data,
   some "https://jira.prod.company.com".data, none⟩

/-- A trivial git oracle. -/
def sampleWorld : GitWorld := ⟨fun _ _ _ => ([], [], [])⟩

/-- A second, different git oracle (used to exercise world-independence). -/
def sampleWorld2 : GitWorld :=
  ⟨fun _ _ _ => ("1234567".data, "1234567890".data, ["Other".data, "subject".data])⟩

/-- The example line of claim C1. -/
def c1Line : Str := "* chg (foo-103,!123,python-libs#456): Changing some feature.".data

/-- The bullet that `c1Line` parses to. -/
def c1Bullet : Bullet :=
  ⟨sampleConfig, c1Line, "changelog".data, .chg,
   [.jiraIssue "foo-103".data, .githubPullRequest "!123".data,
    .githubIssue "python-libs#456".data],
   "Changing some feature.".data⟩

/-- Decidable equality for `Except`, used to settle concrete parse and
render results by evaluation. -/
instance exceptDecEq {ε α : Type} [DecidableEq ε] [DecidableEq α] :
    DecidableEq (Except ε α) := fun
  | .ok a, .ok b =>
    if h : a = b then .isTrue (by rw [h])
    else .isFalse (by intro hh; cases hh; exact h rfl)
  | .ok _, .error _ => .isFalse (by intro h; cases h)
  | .error _, .ok _ => .isFalse (by intro h; cases h)
  | .error e, .error f =>
    if h : e = f then .isTrue (by rw [h])
    else .isFalse (by intro hh; cases hh; exact h rfl)

/-! ### Claim theorems -/

set_option maxRecDepth 20000 in
/-- Claim C1: with `github_repo` and `jira_base_url` configured, the line
`* chg (foo-103,!123,python-libs#456): Changing some feature.` parses into
a bullet of kind `chg` whose tags are exactly JiraIssue `foo-103`,
GithubPullRequest `!123` and GithubIssue `python-libs#456`, in that
order; rendering it yields the body followed by one trailing
parenthesized group holding the three resolved markdown links in the same
order. -/
theorem c1_chg_line_parses_and_renders :
    from_string sampleConfig c1Line ("changelog".data) = .ok c1Bullet
    ∧ to_string sampleWorld c1Bullet =
      .ok ("* Changing some feature. ([FOO-103](https://jira.prod.company.com/browse/FOO-103), [PR:#123](https://github.com/bbugyi200/cldr/pull/123), [python-libs#456](https://github.com/bbugyi200/python-libs/issues/456))\n".data) :=
  ⟨by decide, by decide⟩

/-- Number of positions at which `pat` occurs as a (possibly overlapping)
substring of the argument. -/
def occCount (pat : Str) : Str → Nat
  | [] => if pat.isPrefixOf [] then 1 else 0
  | c :: rest => (if pat.isPrefixOf (c :: rest) then 1 else 0) + occCount pat rest

/-- `isPrefixOf` agrees with the existence of a completing suffix. -/
theorem isPrefixOf_iff_exists (p : Str) :
    ∀ s : Str, p.isPrefixOf s = true ↔ ∃ r, s = p ++ r := by
  induction p with
  | nil => intro s; simp [List.isPrefixOf]
  | cons a p ih =>
    intro s
    match s with
    | [] => simp [List.isPrefixOf]
    | b :: s' =>
      simp only [List.isPrefixOf, Bool.and_eq_true, beq_iff_eq, ih]
      constructor
      · rintro ⟨rfl, r, rfl⟩; exact ⟨r, rfl⟩
      · rintro ⟨r, hr⟩
        injection hr with h1 h2
        exact ⟨h1.symm, r, h2⟩

/-- Every list is a prefix of itself. -/
theorem isPrefixOf_self (l : Str) : l.isPrefixOf l = true :=
  (isPrefixOf_iff_exists l l).mpr ⟨[], (List.append_nil l).symm⟩

/-- A pattern occurs at least once in any list it ends. -/
theorem occCount_suffix_pos (pat : Str) : ∀ A : Str, 1 ≤ occCount pat (A ++ pat) := by
  intro A
  induction A with
  | nil =>
    match pat with
    | [] => simp [occCount]
    | p :: ps => simp [occCount, isPrefixOf_self]
  | cons a A ih =>
    have : ((a :: A) ++ pat) = a :: (A ++ pat) := rfl
    rw [this]
    simp only [occCount]
    omega

/-- When a nonempty pattern occurs exactly once in `A ++ pat` (namely as
the suffix), the replace-all scan rewrites exactly that suffix. -/
theorem replaceAllAux_unique_suffix (pat repl : Str) (hne : pat ≠ []) :
    ∀ (A : Str) (fuel : Nat), (A ++ pat).length ≤ fuel →
      occCount pat (A ++ pat) = 1 →
      replaceAllAux pat repl fuel (A ++ pat) = A ++ repl := by
  intro A
  induction A with
  | nil =>
    intro fuel hfuel hocc
    match pat, hne with
    | p :: ps, _ =>
      cases fuel with
      | zero => simp at hfuel
      | succ f =>
        simp only [List.nil_append, replaceAllAux]
        have hp : (p :: ps).isPrefixOf (p :: ps) = true := isPrefixOf_self _
        simp only [List.isEmpty_cons, Bool.not_false, hp, Bool.and_self, if_pos]
        rw [List.drop_length]
        cases f <;> simp [replaceAllAux]
  | cons a A ih =>
    intro fuel hfuel hocc
    have hcons : ((a :: A) ++ pat) = a :: (A ++ pat) := rfl
    rw [hcons] at hocc hfuel ⊢
    cases fuel with
    | zero => simp at hfuel
    | succ f =>
      by_cases hp : pat.isPrefixOf (a :: (A ++ pat)) = true
      · exfalso
        rw [occCount, if_pos hp] at hocc
        have := occCount_suffix_pos pat A
        omega
      · rw [occCount, if_neg hp] at hocc
        have hocc' : occCount pat (A ++ pat) = 1 := by omega
        simp only [replaceAllAux]
        rw [if_neg]
        · have hlen : (A ++ pat).length ≤ f := by
            simp only [List.length_cons] at hfuel
            omega
          rw [ih f hlen hocc']
          rfl
        · simp only [Bool.and_eq_true, Bool.not_eq_true']
          intro hc
          exact hp hc.2

/-- `lastSplitAt` really splits at an occurrence of the character. -/
theorem lastSplitAt_decomp (ch : Char) :
    ∀ (s A T : Str), lastSplitAt ch s = some (A, T) → s = A ++ ch :: T := by
  intro s
  induction s with
  | nil => intro A T h; simp [lastSplitAt] at h
  | cons c rest ih =>
    intro A T h
    simp only [lastSplitAt] at h
    cases hr : lastSplitAt ch rest with
    | some p =>
      obtain ⟨a, t⟩ := p
      rw [hr] at h
      simp only [Option.some.injEq, Prod.mk.injEq] at h
      obtain ⟨h1, h2⟩ := h
      subst h1
      subst h2
      rw [ih a t hr]
      rfl
    | none =>
      rw [hr] at h
      by_cases hc : c = ch
      · rw [if_pos hc] at h
        simp only [Option.some.injEq, Prod.mk.injEq] at h
        obtain ⟨h1, h2⟩ := h
        subst h1
        subst h2
        rw [hc]
        rfl
      · rw [if_neg hc] at h
        cases h

/-- A successful `parenGroupCapture` on a newline-free line exhibits the
line as `A ++ "(" ++ T ++ ")"`, the capture being the text after the last
`(`. -/
theorem parenGroupCapture_some_decomp (l T : Str)
    (hnl : l.contains '\n' = false)
    (h : parenGroupCapture l = some T) :
    ∃ A, l = A ++ '(' :: (T ++ [')']) := by
  have hnotlast : ¬ l.getLast? = some '\n' := by
    intro hl
    obtain ⟨l', rfl⟩ := List.getLast?_eq_some_iff.mp hl
    rw [show (l' ++ ['\n']).contains '\n' = true from
      List.elem_eq_true_of_mem (by simp)] at hnl
    cases hnl
  simp only [parenGroupCapture, if_neg hnotlast, hnl] at h
  by_cases hlast : l.getLast? = some ')'
  · rw [if_pos hlast] at h
    simp only [Bool.false_eq_true, if_false] at h
    obtain ⟨⟨A, T'⟩, hsplit, hT⟩ := Option.map_eq_some'.mp h
    have hT' : T' = T := hT
    subst hT'
    refine ⟨A, ?_⟩
    have hrec : l.dropLast ++ [')'] = l := List.dropLast_append_getLast? ')' hlast
    rw [lastSplitAt_decomp '(' l.dropLast A T' hsplit] at hrec
    rw [← hrec]
    simp
  · rw [if_neg hlast] at h
    simp at h

/-- Whether a tag is a RelativeCommit tag. -/
def Tag.isRelativeCommit : Tag → Bool
  | .relativeCommit _ => true
  | _ => false

/-- If the tag list contains a BreakingChange tag and the bullet's kind is
neither `chg` nor `rm`, the transform fold fails. -/
theorem foldTransforms_error_of_bc (w : GitWorld) (b : Bullet)
    (hchg : b.kind ≠ .chg) (hrm : b.kind ≠ .rm) :
    ∀ (ts : List Tag) (acc : Str), (∃ s, Tag.breakingChange s ∈ ts) →
      ∃ e, foldTransforms w b ts acc = .error e := by
  intro ts
  induction ts with
  | nil => rintro acc ⟨s, hs⟩; cases hs
  | cons t ts ih =>
    rintro acc ⟨s, hs⟩
    match t with
    | .breakingChange s' =>
      refine ⟨.bcDisallowedKind b.kind b.line, ?_⟩
      simp only [foldTransforms, transform_bullet, breakingChangeTransform]
      have : (b.kind = Kind.chg || b.kind = Kind.rm) = false := by
        cases hk : b.kind <;> simp_all
      rw [this]
      simp
    | .githubIssue tg =>
      have hmem : Tag.breakingChange s ∈ ts := by
        rcases List.mem_cons.mp hs with h | h
        · cases h
        · exact h
      simpa only [foldTransforms, transform_bullet] using ih _ ⟨s, hmem⟩
    | .githubPullRequest tg =>
      have hmem : Tag.breakingChange s ∈ ts := by
        rcases List.mem_cons.mp hs with h | h
        · cases h
        · exact h
      simpa only [foldTransforms, transform_bullet] using ih _ ⟨s, hmem⟩
    | .relativeCommit tg =>
      have hmem : Tag.breakingChange s ∈ ts := by
        rcases List.mem_cons.mp hs with h | h
        · cases h
        · exact h
      simpa only [foldTransforms, transform_bullet] using ih _ ⟨s, hmem⟩
    | .jiraIssue tg =>
      have hmem : Tag.breakingChange s ∈ ts := by
        rcases List.mem_cons.mp hs with h | h
        · cases h
        · exact h
      simp only [foldTransforms, transform_bullet]
      match hj : jiraTransform b.cfg tg acc with
      | .error e => exact ⟨e, rfl⟩
      | .ok acc2 => exact ih _ ⟨s, hmem⟩

/-- Claim C4: rendering a bullet whose tag list contains the `bc`
(BreakingChange) tag fails whenever the bullet's kind is not `chg` or
`rm`; and for a kind in `{chg, rm}` with tag list `[bc]` the rendered
bullet is the body with the leading `* ` replaced by
`* *BREAKING CHANGE*: `. -/
theorem c4_breaking_change_tag (w : GitWorld) (b : Bullet) :
    ((∃ s, Tag.breakingChange s ∈ b.tags) → b.kind ≠ .chg → b.kind ≠ .rm →
      ∃ e, to_string w b = .error e)
    ∧ (∀ s, b.tags = [.breakingChange s] → (b.kind = .chg ∨ b.kind = .rm) →
      to_string w b = .ok ("* *BREAKING CHANGE*: ".data ++ b.body ++ ['\n'])) := by
  constructor
  · intro hbc hchg hrm
    obtain ⟨e, he⟩ := foldTransforms_error_of_bc w b hchg hrm b.tags ("* ".data ++ b.body) hbc
    exact ⟨e, by simp only [to_string, he]⟩
  · intro s htags hkind
    have hk : (b.kind = Kind.chg || b.kind = Kind.rm) = true := by
      rcases hkind with h | h <;> simp [h]
    simp only [to_string, htags, foldTransforms, transform_bullet,
      breakingChangeTransform, hk, if_pos]
    rfl

/-- The concrete disallowed-kind bullet for the C4 witness:
`* add(bc): Added some feature.`. -/
def c4AddBullet : Bullet :=
  ⟨sampleConfig, "* add(bc): Added some feature.".data, "changelog".data,
   .add, [.breakingChange "bc".data], "Added some feature.".data⟩

/-- The concrete allowed-kind bullet for the C4 witness:
`* rm(bc): Removed some important feature.`. -/
def c4RmBullet : Bullet :=
  ⟨sampleConfig, "* rm(bc): Removed some important feature.".data, "changelog".data,
   .rm, [.breakingChange "bc".data], "Removed some important feature.".data⟩

/-- Witness for C4: the `add`-kind bullet fails to render while the
`rm`-kind bullet renders with the breaking-change prefix. -/
theorem c4_breaking_change_tag_witness :
    (∃ e, to_string sampleWorld c4AddBullet = .error e)
    ∧ to_string sampleWorld c4RmBullet =
      .ok ("* *BREAKING CHANGE*: ".data ++ "Removed some important feature.".data ++ ['\n']) :=
  ⟨(c4_breaking_change_tag sampleWorld c4AddBullet).1
      ⟨"bc".data, by decide⟩ (by decide) (by decide),
   (c4_breaking_change_tag sampleWorld c4RmBullet).2
      ("bc".data) rfl (Or.inr rfl)⟩

/-- A transform fold is independent of the git oracle when no tag is a
RelativeCommit tag. -/
theorem foldTransforms_world_independent (w w' : GitWorld) (b : Bullet) :
    ∀ (ts : List Tag) (acc : Str),
      ts.all (fun t => ! t.isRelativeCommit) = true →
      foldTransforms w b ts acc = foldTransforms w' b ts acc := by
  intro ts
  induction ts with
  | nil => intro acc _; rfl
  | cons t ts ih =>
    intro acc hall
    simp only [List.all_cons, Bool.and_eq_true] at hall
    obtain ⟨ht, hall'⟩ := hall
    have hall' : ts.all (fun t => ! t.isRelativeCommit) = true := by
      simpa using hall'
    match t with
    | .breakingChange s =>
      simp only [foldTransforms, transform_bullet]
      cases breakingChangeTransform b acc with
      | error e => rfl
      | ok acc2 => exact ih acc2 hall'
    | .githubIssue s =>
      simp only [foldTransforms, transform_bullet]
      exact ih _ hall'
    | .githubPullRequest s =>
      simp only [foldTransforms, transform_bullet]
      exact ih _ hall'
    | .jiraIssue s =>
      simp only [foldTransforms, transform_bullet]
      cases jiraTransform b.cfg s acc with
      | error e => rfl
      | ok acc2 => exact ih acc2 hall'
    | .relativeCommit s => simp [Tag.isRelativeCommit] at ht

/-- Claim C7: rendering a bullet none of whose tags is a RelativeCommit
tag is deterministic — it does not depend on the external git state, so
two renders of the same parsed bullet under the same configuration agree. -/
theorem c7_render_deterministic_without_relative_commit
    (w w' : GitWorld) (b : Bullet)
    (h : b.tags.all (fun t => ! t.isRelativeCommit) = true) :
    to_string w b = to_string w' b := by
  simp only [to_string]
  rw [foldTransforms_world_independent w w' b b.tags ("* ".data ++ b.body) h]

/-- Witness for C7: the three-tag sample bullet renders identically under
two different git oracles. -/
theorem c7_witness :
    to_string sampleWorld c1Bullet = to_string sampleWorld2 c1Bullet :=
  c7_render_deterministic_without_relative_commit sampleWorld sampleWorld2
    c1Bullet (by decide)

/-- Counterexample to claim C5 as stated: on the line `* x (a) (a)`
(reachable as the render start `"* " + body` of a bullet whose body is
`x (a) (a)`), Python `str.replace` rewrites BOTH occurrences of `(a)`,
so the link is not only inserted before the trailing group's closing
parenthesis: the result is `* x (a, L) (a, L)`, not `* x (a) (a, L)`. -/
theorem c5_counterexample :
    add_tag_to_paren_group ("* x (a) (a)".data) ("L".data) = ("* x (a, L) (a, L)".data)
    ∧ add_tag_to_paren_group ("* x (a) (a)".data) ("L".data) ≠ ("* x (a) (a, L)".data) :=
  ⟨by decide, by decide⟩

/-- Claim C5 (amended): for a newline-free line, if the line does not end
in a parenthesized group the link is appended as ` (LINK)`; if it ends in
a parenthesized group whose captured text `T` (the text between the last
`(` and the final `)`) occurs exactly once as `(T)` in the line, the link
is inserted as `, LINK` immediately before the final closing parenthesis.
(Without the uniqueness proviso every occurrence of `(T)` is rewritten —
see the counterexample.) -/
theorem c5_paren_group_append_rule (l t : Str) (hnl : l.contains '\n' = false) :
    (parenGroupCapture l = none →
      add_tag_to_paren_group l t = l ++ " (".data ++ t ++ [')'])
    ∧ (∀ T, parenGroupCapture l = some T →
      occCount ('(' :: (T ++ [')'])) l = 1 →
      add_tag_to_paren_group l t = l.dropLast ++ ", ".data ++ t ++ [')']) := by
  constructor
  · intro hc
    simp only [add_tag_to_paren_group, hc]
  · intro T hc hocc
    obtain ⟨A, hl⟩ := parenGroupCapture_some_decomp l T hnl hc
    simp only [add_tag_to_paren_group, hc]
    have hpat : ('(' :: (T ++ [')'])) ≠ [] := by simp
    have hfuel : (A ++ ('(' :: (T ++ [')']))).length ≤ l.length := by rw [hl]
    have hocc' : occCount ('(' :: (T ++ [')'])) (A ++ ('(' :: (T ++ [')']))) = 1 := by
      rw [← hl]; exact hocc
    have hmain := replaceAllAux_unique_suffix ('(' :: (T ++ [')']))
      ('(' :: (T ++ ", ".data ++ t) ++ [')']) hpat A l.length hfuel hocc'
    have hdrop : l.dropLast = A ++ '(' :: T := by
      rw [hl]
      rw [show A ++ ('(' :: (T ++ [')'])) = (A ++ '(' :: T) ++ [')'] by simp]
      exact List.dropLast_concat ..
    calc replaceAll l ('(' :: T ++ [')']) ('(' :: (T ++ ", ".data ++ t) ++ [')'])
        = replaceAllAux ('(' :: (T ++ [')'])) ('(' :: (T ++ ", ".data ++ t) ++ [')'])
            l.length l := rfl
      _ = A ++ ('(' :: (T ++ ", ".data ++ t) ++ [')']) := by rw [hl] at hmain ⊢; exact hmain
      _ = l.dropLast ++ ", ".data ++ t ++ [')'] := by rw [hdrop]; simp

/-- Witness for the amended C5: both branches at concrete lines — a line
with no trailing group gets ` (L)` appended, and a line ending in a
unique group `(x)` gets `, L` inserted before the final parenthesis. -/
theorem c5_paren_group_append_rule_witness :
    add_tag_to_paren_group ("* Did a thing.".data) ("L".data)
      = ("* Did a thing.".data ++ " (".data ++ "L".data ++ [')'])
    ∧ add_tag_to_paren_group ("* b (x)".data) ("L".data)
      = (("* b (x)".data).dropLast ++ ", ".data ++ "L".data ++ [')']) :=
  ⟨(c5_paren_group_append_rule ("* Did a thing.".data) ("L".data) (by decide)).1
      (by decide),
   (c5_paren_group_append_rule ("* b (x)".data) ("L".data) (by decide)).2
      ("x".data) (by decide) (by decide)⟩

/-- The first character a `dropWhile` result exposes fails the predicate. -/
theorem dropWhile_head_false (p : Char → Bool) :
    ∀ (l : Str) (c : Char) (t : Str), l.dropWhile p = c :: t → p c = false := by
  intro l
  induction l with
  | nil => intro c t h; cases h
  | cons a l ih =>
    intro c t h
    by_cases hp : p a
    · rw [List.dropWhile_cons_of_pos hp] at h
      exact ih c t h
    · rw [List.dropWhile_cons_of_neg hp] at h
      injection h with h1 _
      subst h1
      simpa using hp

/-- `takeWhile`/`dropWhile` split of `K1 ++ c :: R` when all of `K1`
satisfies the predicate and `c` does not. -/
theorem takeWhile_all_append (p : Char → Bool) :
    ∀ (K1 : Str) (c : Char) (R : Str), K1.all p = true → p c = false →
      (K1 ++ c :: R).takeWhile p = K1 ∧ (K1 ++ c :: R).dropWhile p = c :: R := by
  intro K1
  induction K1 with
  | nil =>
    intro c R _ hc
    constructor
    · simp [List.takeWhile_cons, hc]
    · simp [List.dropWhile_cons, hc]
  | cons a K1 ih =>
    intro c R hall hc
    simp only [List.all_cons, Bool.and_eq_true] at hall
    obtain ⟨ha, hall⟩ := hall
    have := ih c R hall hc
    constructor
    · simp only [List.cons_append, List.takeWhile_cons, ha, if_true, this.1]
    · simp only [List.cons_append, List.dropWhile_cons, ha, if_true, this.2]

/-- An upper-case ASCII letter is not a lower-case one. -/
theorem not_lower_of_upper (c : Char) (h : isUpperAZ c = true) : isLowerAZ c = false := by
  simp only [isUpperAZ, Bool.and_eq_true, decide_eq_true_eq] at h
  have : ¬ ('a' ≤ c) := fun ha => absurd (le_trans ha h.2) (by decide)
  simp [isLowerAZ, this]

/-- ASCII letters are none of the grammar's delimiter characters. -/
theorem letter_not_special (c : Char) (h : isAsciiLetter c = true) :
    c ≠ ' ' ∧ c ≠ '(' ∧ c ≠ ':' := by
  refine ⟨?_, ?_, ?_⟩ <;> rintro rfl <;>
    simp [isAsciiLetter, isLowerAZ, isUpperAZ] at h

/-- Counterexample to claim C8 as stated: the kind pattern `[a-z]+` is
NOT applied case-insensitively — `* ADD: body` fails to parse with the
grammar (malformed-line) error, while `* add: body` parses; the
upper-case spelling does not yield the same bullet. -/
theorem c8_counterexample :
    from_string sampleConfig ("* ADD: body".data) ("changelog".data)
      = .error (.malformedLine ("* ADD: body".data))
    ∧ from_string sampleConfig ("* add: body".data) ("changelog".data)
      = .ok ⟨sampleConfig, "* add: body".data, "changelog".data, .add, [], "body".data⟩ :=
  ⟨by decide, by decide⟩

/-- Claim C8 (amended): kind matching is case-sensitive.  For every kind
token `K` made of ASCII letters at least one of which is upper-case, the
line `* K: B` does not match the bullet grammar and parsing fails with
the malformed-line error (the parser's subsequent `.lower()` call only
ever sees already-lower-case text). -/
theorem c8_kind_case_sensitive (cfg : Config) (d B K : Str)
    (hletters : K.all isAsciiLetter = true)
    (hupper : K.any isUpperAZ = true) :
    from_string cfg ('*' :: ' ' :: (K ++ ':' :: ' ' :: B)) d
      = .error (.malformedLine ('*' :: ' ' :: (K ++ ':' :: ' ' :: B))) := by
  have hK2ne : K.dropWhile isLowerAZ ≠ [] := by
    intro hnil
    obtain ⟨c, hc, hcu⟩ := List.any_eq_true.mp hupper
    have hcl : isLowerAZ c = true := List.dropWhile_eq_nil_iff.mp hnil c hc
    rw [not_lower_of_upper c hcu] at hcl
    cases hcl
  obtain ⟨k2, K2', hK2⟩ : ∃ k2 K2', K.dropWhile isLowerAZ = k2 :: K2' := by
    cases h : K.dropWhile isLowerAZ with
    | nil => exact absurd h hK2ne
    | cons a t => exact ⟨a, t, rfl⟩
  have hk2mem : k2 ∈ K :=
    (List.dropWhile_sublist isLowerAZ).mem (by rw [hK2]; exact List.mem_cons_self ..)
  have hk2letter : isAsciiLetter k2 = true := List.all_eq_true.mp hletters _ hk2mem
  obtain ⟨hk2sp, hk2par, hk2col⟩ := letter_not_special k2 hk2letter
  have hk2lower : isLowerAZ k2 = false := dropWhile_head_false _ K k2 K2' hK2
  have hK1all : (K.takeWhile isLowerAZ).all isLowerAZ = true := by
    rw [List.all_eq_true]
    intro x hx
    exact List.mem_takeWhile_imp hx
  have hsplit : K ++ ':' :: ' ' :: B
      = K.takeWhile isLowerAZ ++ k2 :: (K2' ++ ':' :: ' ' :: B) := by
    conv_lhs => rw [← List.takeWhile_append_dropWhile (p := isLowerAZ) (l := K)]
    rw [hK2]
    simp
  have htk := takeWhile_all_append isLowerAZ (K.takeWhile isLowerAZ) k2
    (K2' ++ ':' :: ' ' :: B) hK1all hk2lower
  have hbm : bulletMatch ('*' :: ' ' :: (K ++ ':' :: ' ' :: B)) = none := by
    have hXd : dropSpaces (' ' :: (K ++ ':' :: ' ' :: B)) = K ++ ':' :: ' ' :: B := by
      rw [show dropSpaces (' ' :: (K ++ ':' :: ' ' :: B))
          = dropSpaces (K ++ ':' :: ' ' :: B) from
        List.dropWhile_cons_of_pos (by decide)]
      rw [hsplit]
      cases hK1 : K.takeWhile isLowerAZ with
      | nil =>
        simp only [List.nil_append]
        exact List.dropWhile_cons_of_neg (by simp [hk2sp])
      | cons a t =>
        have ha : isLowerAZ a = true := by
          have : a ∈ K.takeWhile isLowerAZ := by rw [hK1]; exact List.mem_cons_self ..
          exact List.mem_takeWhile_imp this
        have hasp : (a = ' ') = False := by
          simp only [eq_iff_iff, iff_false]
          rintro rfl
          simp [isLowerAZ] at ha
        simp only [List.cons_append, dropSpaces]
        rw [List.dropWhile_cons_of_neg (by simp [hasp])]
    simp only [bulletMatch]
    rw [if_pos (by decide)]
    rw [hXd]
    rw [show (K ++ ':' :: ' ' :: B).takeWhile isLowerAZ = K.takeWhile isLowerAZ by
      rw [hsplit, htk.1]]
    cases hK1 : K.takeWhile isLowerAZ with
    | nil => rfl
    | cons a t =>
      rw [if_neg (by simp)]
      rw [show (K ++ ':' :: ' ' :: B).drop (a :: t).length = k2 :: (K2' ++ ':' :: ' ' :: B) by
        rw [hsplit, ← hK1, List.drop_left]]
      rw [show dropSpaces (k2 :: (K2' ++ ':' :: ' ' :: B)) = k2 :: (K2' ++ ':' :: ' ' :: B) from
        List.dropWhile_cons_of_neg (by simp [hk2sp])]
      rw [if_neg (by simp [hk2par])]
      rw [show contExtract (k2 :: (K2' ++ ':' :: ' ' :: B)) = none by
        simp only [contExtract]
        rw [show dropSpaces (k2 :: (K2' ++ ':' :: ' ' :: B)) = k2 :: (K2' ++ ':' :: ' ' :: B) from
          List.dropWhile_cons_of_neg (by simp [hk2sp])]
        rw [if_neg (by simp [hk2col])]]
  simp only [from_string, hbm]

/-- Witness for the amended C8 at the mixed-case kind `aDd`. -/
theorem c8_kind_case_sensitive_witness :
    from_string sampleConfig ('*' :: ' ' :: ("aDd".data ++ ':' :: ' ' :: "body".data))
      ("changelog".data)
      = .error (.malformedLine ('*' :: ' ' :: ("aDd".data ++ ':' :: ' ' :: "body".data))) :=
  c8_kind_case_sensitive sampleConfig ("changelog".data) ("body".data) ("aDd".data)
    (by decide) (by decide)

/-- `[1-9]` digits are `[0-9]` digits. -/
theorem digit09_of_digit19 (c : Char) (h : isDigit19 c = true) : isDigit09 c = true := by
  simp only [isDigit19, Bool.and_eq_true, decide_eq_true_eq] at h
  have h0 : ('0' : Char) ≤ '1' := by decide
  simp only [isDigit09, Bool.and_eq_true, decide_eq_true_eq]
  exact ⟨le_trans h0 h.1, h.2⟩

/-- ASCII letters are not the GitHub tag sigils or a slash. -/
theorem letter_ne_symbols (c : Char) (h : isAsciiLetter c = true) :
    c ≠ '#' ∧ c ≠ '!' ∧ c ≠ '/' := by
  refine ⟨?_, ?_, ?_⟩ <;> rintro rfl <;>
    simp [isAsciiLetter, isLowerAZ, isUpperAZ] at h

/-- Digits are not the GitHub tag sigils or a slash. -/
theorem digit_ne_symbols (c : Char) (h : isDigit09 c = true) :
    c ≠ '#' ∧ c ≠ '!' ∧ c ≠ '/' := by
  simp only [isDigit09, Bool.and_eq_true, decide_eq_true_eq] at h
  refine ⟨?_, ?_, ?_⟩ <;> rintro rfl <;> exact absurd h.1 (by decide)

/-- A token without the sigil character cannot match `CH[1-9][0-9]*`. -/
theorem ghAlt1Lens_nil (ch : Char) (cs : Str) (h : ∀ c ∈ cs, c ≠ ch) :
    ghAlt1Lens ch cs = [] := by
  cases cs with
  | nil => rfl
  | cons c rest =>
    simp only [ghAlt1Lens]
    rw [if_neg (h c (List.mem_cons_self ..))]

/-- A token without the sigil character cannot match
`[^/CH]+CH[1-9][0-9]*`. -/
theorem ghAlt2Lens_nil (ch : Char) (cs : Str) (h : ∀ c ∈ cs, c ≠ ch) :
    ghAlt2Lens ch cs = [] := by
  apply List.flatMap_eq_nil_iff.mpr
  intro a _
  cases hd : cs.drop a with
  | nil => rfl
  | cons c rest =>
    have hc : c ∈ cs := List.drop_subset a cs (by rw [hd]; exact List.mem_cons_self ..)
    simp only []
    rw [if_neg (h c hc)]

/-- A token without a slash cannot match `[^/CH]+/[^/CH]+CH[1-9][0-9]*`. -/
theorem ghAlt3Lens_nil (ch : Char) (cs : Str) (h : ∀ c ∈ cs, c ≠ '/') :
    ghAlt3Lens ch cs = [] := by
  apply List.flatMap_eq_nil_iff.mpr
  intro a _
  cases hd : cs.drop a with
  | nil => rfl
  | cons c rest =>
    have hc : c ∈ cs := List.drop_subset a cs (by rw [hd]; exact List.mem_cons_self ..)
    simp only []
    rw [if_neg (h c hc)]

/-- A token with neither the sigil nor a slash does not match the GitHub
tag grammar at all. -/
theorem ghLens_nil (ch : Char) (cs : Str)
    (hch : ∀ c ∈ cs, c ≠ ch) (hsl : ∀ c ∈ cs, c ≠ '/') :
    ghLens ch cs = [] := by
  simp [ghLens, ghAlt1Lens_nil ch cs hch, ghAlt2Lens_nil ch cs hch,
    ghAlt3Lens_nil ch cs hsl]

/-- Every `ORG-N` token (letters, hyphen, digits with no leading zero)
matches the JiraIssue grammar. -/
theorem jiraLens_org_num (org : Str) (d : Char) (ds : Str)
    (horg : org ≠ []) (hletters : org.all isAsciiLetter = true)
    (hd : isDigit19 d = true) :
    jiraLens (org ++ '-' :: d :: ds) ≠ [] := by
  have hminus : isAsciiLetter '-' = false := by decide
  have htk := takeWhile_all_append isAsciiLetter org '-' (d :: ds) hletters hminus
  have hrun : runLen isAsciiLetter (org ++ '-' :: d :: ds) = org.length := by
    simp [runLen, htk.1]
  have horglen : 1 ≤ org.length := List.length_pos.mpr horg
  have ha : org.length ∈ descend (runLen isAsciiLetter (org ++ '-' :: d :: ds)) 1 := by
    rw [hrun]
    simp only [descend, List.mem_reverse, List.mem_range'_1]
    omega
  have hy : (1 + runLen isDigit09 ds) + (org.length + 1)
      ∈ (descend (runLen isAsciiLetter (org ++ '-' :: d :: ds)) 1).flatMap fun a =>
          match (org ++ '-' :: d :: ds).drop a with
          | c :: rest => if c = '-' then (numLens rest).map (· + (a + 1)) else []
          | [] => [] := by
    apply List.mem_flatMap.mpr
    refine ⟨org.length, ha, ?_⟩
    rw [List.drop_left]
    simp only [if_pos rfl]
    apply List.mem_map.mpr
    refine ⟨1 + runLen isDigit09 ds, ?_, rfl⟩
    simp only [numLens, hd, if_pos, descend, List.mem_reverse, List.mem_range'_1]
    omega
  intro hnil
  rw [jiraLens] at hnil
  rw [List.append_eq_nil] at hnil
  rw [hnil.1] at hy
  cases hy

/-- Counterexample to claim C9 as stated: the `ORG-N` token `bc-1`
(ORG = `bc`, N = `1`) is NOT classified as a JiraIssue tag — the
BreakingChange regexp `bc` prefix-matches it first (the classification
loop uses unanchored `re.match`), so `* chg (bc-1): x` parses to a
bullet carrying a BreakingChange tag with raw value `bc-1`. -/
theorem c9_counterexample :
    from_string sampleConfig ("* chg (bc-1): x".data) ("changelog".data)
      = .ok ⟨sampleConfig, "* chg (bc-1): x".data, "changelog".data, .chg,
             [.breakingChange "bc-1".data], "x".data⟩
    ∧ classifyTag ("bc-1".data) ≠ some (.jiraIssue "bc-1".data) :=
  ⟨by decide, by decide⟩

/-- Claim C9 (amended): a tag token of the JiraIssue form `ORG-N` (one or
more letters, a hyphen, a positive integer without leading zero) is
classified, first-listed-wins, as a JiraIssue tag carrying the raw token
— UNLESS `bc` is a prefix of `ORG`, in which case the BreakingChange
pattern prefix-matches first and the token is classified as a
BreakingChange tag. -/
theorem c9_token_classification (org : Str) (d : Char) (ds : Str)
    (horg : org ≠ []) (hletters : org.all isAsciiLetter = true)
    (hd : isDigit19 d = true) (hds : ds.all isDigit09 = true) :
    classifyTag (org ++ '-' :: d :: ds)
      = some (if ("bc".data).isPrefixOf org then
                Tag.breakingChange (org ++ '-' :: d :: ds)
              else Tag.jiraIssue (org ++ '-' :: d :: ds)) := by
  have hmem : ∀ c ∈ org ++ '-' :: d :: ds, (c ≠ '#' ∧ c ≠ '!' ∧ c ≠ '/') := by
    intro c hc
    rcases List.mem_append.mp hc with h | h
    · exact letter_ne_symbols c (List.all_eq_true.mp hletters c h)
    · rcases List.mem_cons.mp h with rfl | h2
      · exact ⟨by decide, by decide, by decide⟩
      · rcases List.mem_cons.mp h2 with rfl | h3
        · exact digit_ne_symbols c (digit09_of_digit19 c hd)
        · exact digit_ne_symbols c (List.all_eq_true.mp hds c h3)
  have hgh1 : ghLens '#' (org ++ '-' :: d :: ds) = [] :=
    ghLens_nil _ _ (fun c hc => (hmem c hc).1) (fun c hc => (hmem c hc).2.2)
  have hgh2 : ghLens '!' (org ++ '-' :: d :: ds) = [] :=
    ghLens_nil _ _ (fun c hc => (hmem c hc).2.1) (fun c hc => (hmem c hc).2.2)
  have hbc : bcLens (org ++ '-' :: d :: ds)
      = if ("bc".data).isPrefixOf org then [2] else [] := by
    match org, horg with
    | [a], _ =>
      simp [bcLens, List.isPrefixOf]
    | a :: b :: t, _ =>
      simp [bcLens, List.isPrefixOf]
  have hjira := jiraLens_org_num org d ds horg hletters hd
  by_cases hpre : ("bc".data).isPrefixOf org = true
  · simp [classifyTag, hbc, hpre]
  · rw [Bool.not_eq_true] at hpre
    simp [classifyTag, hbc, hpre, hgh1, hgh2, hjira]

/-- Witness for the amended C9 at the tokens `foo-103` (classified
JiraIssue) and `bcd-2` (classified BreakingChange by prefix match). -/
theorem c9_token_classification_witness :
    classifyTag ("foo".data ++ '-' :: '1' :: "03".data)
      = some (if ("bc".data).isPrefixOf "foo".data then
                Tag.breakingChange ("foo".data ++ '-' :: '1' :: "03".data)
              else Tag.jiraIssue ("foo".data ++ '-' :: '1' :: "03".data))
    ∧ classifyTag ("bcd".data ++ '-' :: '2' :: [])
      = some (if ("bc".data).isPrefixOf "bcd".data then
                Tag.breakingChange ("bcd".data ++ '-' :: '2' :: [])
              else Tag.jiraIssue ("bcd".data ++ '-' :: '2' :: [])) :=
  ⟨c9_token_classification ("foo".data) '1' ("03".data)
      (by decide) (by decide) (by decide) (by decide),
   c9_token_classification ("bcd".data) '2' []
      (by decide) (by decide) (by decide) (by decide)⟩

/-- `headD` through `head?`. -/
theorem headD_eq_head_getD (l : Str) (d : Char) : l.headD d = (l.head?).getD d := by
  cases l <;> rfl

/-- Claim C10: the JiraIssue transform errors exactly when `jira_base_url`
is unset (the error naming that option), or when the token is
bare-numeric and `jira_org` is unset; otherwise it succeeds, appending a
browse link whose text is the upper-cased (and, for bare-numeric tokens,
org-prefixed) tag. -/
theorem c10_jira_transform_errors (cfg : Config) (tag line : Str) (hne : tag ≠ []) :
    ((∃ e, jiraTransform cfg tag line = .error e) ↔
      (cfg.jira_base_url = none ∨
        (isDigit09 (tag.headD ' ') = true ∧ cfg.jira_org = none)))
    ∧ (cfg.jira_base_url = none → jiraTransform cfg tag line = .error .jiraBaseUrlUnset)
    ∧ (∀ base, cfg.jira_base_url = some base →
        ((isDigit09 (tag.headD ' ') = true → cfg.jira_org = none →
          jiraTransform cfg tag line = .error (.jiraOrgUnset tag))
        ∧ (∀ org, isDigit09 (tag.headD ' ') = true → cfg.jira_org = some org →
          jiraTransform cfg tag line = .ok (add_tag_to_paren_group line
            ('[' :: ((org ++ '-' :: tag).map Char.toUpper) ++ ']' :: '(' ::
              (base ++ "/browse/".data ++ ((org ++ '-' :: tag).map Char.toUpper)) ++ [')'])))
        ∧ (isDigit09 (tag.headD ' ') = false →
          jiraTransform cfg tag line = .ok (add_tag_to_paren_group line
            ('[' :: (tag.map Char.toUpper) ++ ']' :: '(' ::
              (base ++ "/browse/".data ++ (tag.map Char.toUpper)) ++ [')']))))) := by
  refine ⟨?_, ?_, ?_⟩
  · constructor
    · rintro ⟨e, he⟩
      cases hb : cfg.jira_base_url with
      | none => exact Or.inl rfl
      | some base =>
        by_cases hd : isDigit09 (tag.headD ' ') = true
        · cases ho : cfg.jira_org with
          | none => exact Or.inr ⟨hd, rfl⟩
          | some org =>
            exfalso
            have hd' : isDigit09 ((List.head? tag).getD ' ') = true := by
              rw [← headD_eq_head_getD]; exact hd
            simp [jiraTransform, headD_eq_head_getD, hb, hd', ho] at he
        · exfalso
          rw [Bool.not_eq_true] at hd
          have hd' : isDigit09 ((List.head? tag).getD ' ') = false := by
            rw [← headD_eq_head_getD]; exact hd
          simp [jiraTransform, headD_eq_head_getD, hb, hd'] at he
    · rintro (hb | ⟨hd, ho⟩)
      · exact ⟨.jiraBaseUrlUnset, by simp [jiraTransform, hb]⟩
      · cases hb : cfg.jira_base_url with
        | none => exact ⟨.jiraBaseUrlUnset, by simp [jiraTransform, hb]⟩
        | some base =>
          have hd' : isDigit09 ((List.head? tag).getD ' ') = true := by
            rw [← headD_eq_head_getD]; exact hd
          exact ⟨.jiraOrgUnset tag, by simp [jiraTransform, hb, hd', ho]⟩
  · intro hb
    simp [jiraTransform, hb]
  · intro base hb
    refine ⟨?_, ?_, ?_⟩
    · intro hd ho
      have hd' : isDigit09 ((List.head? tag).getD ' ') = true := by
        rw [← headD_eq_head_getD]; exact hd
      simp [jiraTransform, hb, hd', ho]
    · intro org hd ho
      have hd' : isDigit09 ((List.head? tag).getD ' ') = true := by
        rw [← headD_eq_head_getD]; exact hd
      simp [jiraTransform, hb, hd', ho]
    · intro hd
      have hd' : isDigit09 ((List.head? tag).getD ' ') = false := by
        rw [← headD_eq_head_getD]; exact hd
      simp [jiraTransform, hb, hd']

/-- A configuration with `jira_org` set, for the C10 witness. -/
def c10Config : Config :=
  ⟨"https://github.com/bbugyi200/cldr".data, some "https://j".data, some "ab".data⟩

/-- Witness for C10: the bare-numeric token `7` under a configuration
with `jira_org = ab` renders the upper-cased org-prefixed link `AB-7`. -/
theorem c10_jira_transform_errors_witness :
    jiraTransform c10Config ("7".data) ("* Body.".data)
      = .ok (add_tag_to_paren_group ("* Body.".data)
          ('[' :: (("ab".data ++ '-' :: "7".data).map Char.toUpper) ++ ']' :: '(' ::
            ("https://j".data ++ "/browse/".data
              ++ (("ab".data ++ '-' :: "7".data).map Char.toUpper)) ++ [')'])) :=
  (((c10_jira_transform_errors c10Config ("7".data) ("* Body.".data)
      (by decide)).2.2 ("https://j".data) rfl).2.1) ("ab".data) (by decide) rfl

/-- Claim C6: reading the changelog directory stops at the first
unparseable line: when every earlier line is blank or parses, and `bad`
fails to parse, the reader returns the wrapping error naming the
offending (stripped) line and the inner failure — no kind-to-bullets
grouping is produced. -/
theorem c6_read_stops_at_first_parse_error (cfg : Config) (dir : Str)
    (files : List Str) (pre post : List Str) (bad : Str) (e : CldrError)
    (hfiles : files ≠ [])
    (hconcat : (files.map (pySplitChar '\n')).flatten = pre ++ bad :: post)
    (hpre : ∀ l ∈ pre, pyStrip l = []
      ∨ (from_string cfg (pyStrip l) dir).toOption.isSome = true)
    (hbadne : pyStrip bad ≠ [])
    (hbad : from_string cfg (pyStrip bad) dir = .error e) :
    read_bullets_from_changelog_dir cfg dir true files
      = .error (.bulletParse (pyStrip bad) e) := by
  have hgroup : ∀ (pre2 : List Str) (acc : KindMap),
      (∀ l ∈ pre2, pyStrip l = []
        ∨ (from_string cfg (pyStrip l) dir).toOption.isSome = true) →
      groupBullets cfg dir (pre2 ++ bad :: post) acc
        = .error (.bulletParse (pyStrip bad) e) := by
    intro pre2
    induction pre2 with
    | nil =>
      intro acc _
      simp only [List.nil_append, groupBullets]
      rw [if_neg (by simp [hbadne]), hbad]
    | cons l pre2 ih =>
      intro acc hall
      have hl := hall l (List.mem_cons_self ..)
      have hrest : ∀ x ∈ pre2, pyStrip x = []
          ∨ (from_string cfg (pyStrip x) dir).toOption.isSome = true :=
        fun x hx => hall x (List.mem_cons_of_mem _ hx)
      rcases hl with hempty | hok
      · simp only [List.cons_append, groupBullets]
        rw [if_pos (by simp [hempty])]
        exact ih acc hrest
      · obtain ⟨b, hb⟩ : ∃ b, from_string cfg (pyStrip l) dir = .ok b := by
          cases hfs : from_string cfg (pyStrip l) dir with
          | ok b => exact ⟨b, rfl⟩
          | error x => rw [hfs] at hok; simp [Except.toOption] at hok
        simp only [List.cons_append, groupBullets]
        by_cases hemp : (pyStrip l).isEmpty
        · rw [if_pos hemp]
          exact ih acc hrest
        · rw [if_neg hemp, hb]
          exact ih _ hrest
  simp only [read_bullets_from_changelog_dir, Bool.not_true, Bool.false_eq_true,
    if_false]
  rw [if_neg (by simp [hfiles])]
  rw [hconcat]
  exact hgroup pre KindMap.empty hpre

/-- Witness for C6: a file whose second line has the invalid kind `addd`
makes the whole read fail with the wrapped parse error. -/
theorem c6_read_stops_at_first_parse_error_witness :
    read_bullets_from_changelog_dir sampleConfig ("changelog".data) true
      ["* add: x\n* addd: y\n".data]
      = .error (.bulletParse ("* addd: y".data)
          (.invalidKind ("addd".data) ("* addd: y".data))) :=
  c6_read_stops_at_first_parse_error sampleConfig ("changelog".data)
    ["* add: x\n* addd: y\n".data] ["* add: x".data] [[]] ("* addd: y".data)
    (.invalidKind ("addd".data) ("* addd: y".data))
    (by decide) (by decide) (by decide) (by decide) (by decide)

/-- If no line matches the unreleased-header test, the scan finds
neither a start nor an end index. -/
theorem scanUnreleased_none (lines : List Str)
    (h : ∀ l ∈ lines, unreleasedHeaderMatch l = false) :
    ∀ i, scanUnreleased lines i none = (none, none) := by
  induction lines with
  | nil => intro i; rfl
  | cons l rest ih =>
    intro i
    simp only [scanUnreleased]
    rw [if_neg (by simp [h l (List.mem_cons_self ..)])]
    exact ih (fun x hx => h x (List.mem_cons_of_mem _ hx)) (i + 1)

/-- Claim C3: when the changelog document contains no unreleased-section
header, the build returns a handled failure — exit code 1, no new
contents, the changelog file not rewritten, no bullet file deleted — and
(whenever the bullet read itself succeeded) the reported error carries
the expected header form as guidance. -/
theorem c3_build_fails_without_unreleased_header (bc : BuildConfig) (env : BuildEnv)
    (h : ∀ l ∈ pySplitChar '\n' env.changelogContents,
      unreleasedHeaderMatch l = false) :
    (∃ e, run_build bc env = .ok (failOutcome e))
    ∧ (∀ m, read_bullets_from_changelog_dir bc.toConfig bc.changelog_dir
          env.changelogDirExists env.bulletFiles = .ok m →
        run_build bc env
          = .ok (failOutcome (.noUnreleasedSection (expectedUnreleasedForm bc.github_repo)))) := by
  have hscan := scanUnreleased_none (pySplitChar '\n' env.changelogContents) h 0
  constructor
  · cases hr : read_bullets_from_changelog_dir bc.toConfig bc.changelog_dir
        env.changelogDirExists env.bulletFiles with
    | error e =>
      refine ⟨e, ?_⟩
      simp only [run_build, hr]
    | ok m =>
      refine ⟨.noUnreleasedSection (expectedUnreleasedForm bc.github_repo), ?_⟩
      simp only [run_build, hr, hscan]
  · intro m hm
    simp only [run_build, hm, hscan]

/-- The build configuration used by the C3 witness. -/
def c3BuildConfig : BuildConfig :=
  ⟨"https://github.com/bbugyi200/cldr".data, some "https://j".data, none,
   "changelog".data, "1.0.0".data, true⟩

/-- A build environment whose changelog has no unreleased header. -/
def c3Env : BuildEnv :=
  ⟨"# ChangeLog\n\nnothing here\n".data, true, ["* add: x\n".data],
   "2026-10-12".data, sampleWorld⟩

/-- Witness for C3: the header-less document makes the build return the
no-write failure outcome carrying the expected-header guidance. -/
theorem c3_build_fails_without_unreleased_header_witness :
    (∃ e, run_build c3BuildConfig c3Env = .ok (failOutcome e))
    ∧ run_build c3BuildConfig c3Env
      = .ok (failOutcome (.noUnreleasedSection
          (expectedUnreleasedForm c3BuildConfig.github_repo))) :=
  ⟨(c3_build_fails_without_unreleased_header c3BuildConfig c3Env (by decide)).1,
   (c3_build_fails_without_unreleased_header c3BuildConfig c3Env (by decide)).2
     (KindMap.empty.append Kind.add
       ⟨c3BuildConfig.toConfig, "* add: x".data, "changelog".data, .add, [], "x".data⟩)
     rfl⟩

/-- A list is a prefix of itself extended on the right. -/
theorem isPrefixOf_append_self (a b : Str) : a.isPrefixOf (a ++ b) = true :=
  (isPrefixOf_iff_exists a (a ++ b)).mpr ⟨b, rfl⟩

/-- Being a prefix is stable under appending on the right. -/
theorem isPrefixOf_append_mono (p x y : Str) (h : p.isPrefixOf x = true) :
    p.isPrefixOf (x ++ y) = true := by
  obtain ⟨r, rfl⟩ := (isPrefixOf_iff_exists p x).mp h
  rw [List.append_assoc]
  exact isPrefixOf_append_self _ _

/-- `p ++ [c]` is a prefix of `p ++ c :: u`. -/
theorem isPrefixOf_append_cons (p : Str) (c : Char) (u : Str) :
    (p ++ [c]).isPrefixOf (p ++ c :: u) = true := by
  rw [show p ++ c :: u = (p ++ [c]) ++ u by simp]
  exact isPrefixOf_append_self _ _

/-- A list is a suffix of itself extended on the left. -/
theorem isSuffixOf_append_self (a b : Str) : b.isSuffixOf (a ++ b) = true := by
  simp only [List.isSuffixOf, List.reverse_append]
  exact isPrefixOf_append_self b.reverse a.reverse

/-- Being a suffix is stable under appending on the left. -/
theorem isSuffixOf_append_mono (x b y : Str) (h : b.isSuffixOf y = true) :
    b.isSuffixOf (x ++ y) = true := by
  simp only [List.isSuffixOf, List.reverse_append] at h ⊢
  exact isPrefixOf_append_mono _ _ _ h

/-- Claim C2: whatever a successful build outputs starts with every
original line before the unreleased header (joined with newlines,
verbatim) and — when a following top-level header exists at index `e` —
ends with every original line from that header onward, verbatim; only
the middle zone is replaced. -/
theorem c2_build_preserves_frame (bc : BuildConfig) (env : BuildEnv) (s : Nat) (endOpt : Option Nat)
    (hscan : scanUnreleased (pySplitChar '\n' env.changelogContents) 0 none
      = (some s, endOpt)) :
    (buildOutput bc env).all (fun nc =>
      ((pyJoinChar '\n' ((pySplitChar '\n' env.changelogContents).take s))
        ++ ['\n']).isPrefixOf nc) = true
    ∧ ∀ e, endOpt = some e →
      (buildOutput bc env).all (fun nc =>
        (pyJoinChar '\n' ((pySplitChar '\n' env.changelogContents).drop e)).isSuffixOf nc) = true := by
  cases hr : read_bullets_from_changelog_dir bc.toConfig bc.changelog_dir
      env.changelogDirExists env.bulletFiles with
  | error err =>
    constructor
    · simp only [buildOutput, run_build, hr, failOutcome, Option.all]
    · intro e he
      simp only [buildOutput, run_build, hr, failOutcome, Option.all]
  | ok m =>
    cases endOpt with
    | none =>
      constructor
      · cases hrs : renderSections env.git m kindsBySectionTitle true [] with
        | error err =>
          simp only [buildOutput, run_build, hr, hscan, hrs, Option.all]
        | ok sections =>
          simp only [buildOutput, run_build, hr, hscan, hrs, Option.all_some]
          apply isPrefixOf_append_mono
          apply isPrefixOf_append_mono
          apply isPrefixOf_append_mono
          apply isPrefixOf_append_mono
          apply isPrefixOf_append_mono
          apply isPrefixOf_append_mono
          apply isPrefixOf_append_mono
          apply isPrefixOf_append_mono
          apply isPrefixOf_append_mono
          apply isPrefixOf_append_mono
          apply isPrefixOf_append_mono
          exact isPrefixOf_append_cons _ _ _
      · intro e he
        cases he
    | some e0 =>
      cases hv : get_version ((pySplitChar '\n' env.changelogContents).getD e0 []) with
      | error err =>
        constructor
        · simp only [buildOutput, run_build, hr, hscan, hv, failOutcome, Option.all]
        · intro e he
          simp only [buildOutput, run_build, hr, hscan, hv, failOutcome, Option.all]
      | ok oldv =>
        cases hrs : renderSections env.git m kindsBySectionTitle true [] with
        | error err =>
          constructor
          · simp only [buildOutput, run_build, hr, hscan, hv, hrs, Option.all]
          · intro e he
            simp only [buildOutput, run_build, hr, hscan, hv, hrs, Option.all]
        | ok sections =>
          constructor
          · simp only [buildOutput, run_build, hr, hscan, hv, hrs, Option.all_some]
            apply isPrefixOf_append_mono
            apply isPrefixOf_append_mono
            apply isPrefixOf_append_mono
            apply isPrefixOf_append_mono
            apply isPrefixOf_append_mono
            apply isPrefixOf_append_mono
            apply isPrefixOf_append_mono
            apply isPrefixOf_append_mono
            apply isPrefixOf_append_mono
            apply isPrefixOf_append_mono
            apply isPrefixOf_append_mono
            exact isPrefixOf_append_cons _ _ _
          · intro e he
            injection he with he0
            subst he0
            simp only [buildOutput, run_build, hr, hscan, hv, hrs, Option.all_some]
            apply isSuffixOf_append_mono
            exact isSuffixOf_append_self _ _

/-- The build configuration used by the C2 witness. -/
def c2BuildConfig : BuildConfig :=
  ⟨"https://github.com/bbugyi200/cldr".data, some "https://j".data, none,
   "changelog".data, "1.0.0".data, true⟩

/-- A build environment whose changelog has an unreleased section at line
index 5 followed by a released-version header at line index 9. -/
def c2Env : BuildEnv :=
  ⟨("# ChangeLog\n\nAll notable changes to this project will be documented in this file.\n\n\n"
    ++ "## [Unreleased](https://j/compare/0.9.9...HEAD)\n\nOld unreleased contents.\n\n"
    ++ "## [0.9.9](https://j/compare/0.9.8...0.9.9) - 2021-08-08\n\n### Fixed\n\n* Fixed some bug.\n").data,
   true, ["* add: Adding some feature.\n".data], "2026-10-12".data, sampleWorld⟩

/-- Witness for C2: the sample build's output keeps the five leading
lines as a prefix and the `0.9.9` section onward as a suffix. -/
theorem c2_build_preserves_frame_witness :
    (buildOutput c2BuildConfig c2Env).all (fun nc =>
      ((pyJoinChar '\n' ((pySplitChar '\n' c2Env.changelogContents).take 5))
        ++ ['\n']).isPrefixOf nc) = true
    ∧ (buildOutput c2BuildConfig c2Env).all (fun nc =>
        (pyJoinChar '\n' ((pySplitChar '\n' c2Env.changelogContents).drop 9)).isSuffixOf nc) = true :=
  ⟨(c2_build_preserves_frame c2BuildConfig c2Env 5 (some 9) (by decide)).1,
   (c2_build_preserves_frame c2BuildConfig c2Env 5 (some 9) (by decide)).2 9 rfl⟩

end Cldr
